import Mathlib

/-!
Verification development for a Texas Hold'em poker server
(`poker_server.py`): a shallow embedding of the card model, the 7-card
hand evaluator, the betting-round engine and the side-pot allocator,
together with theorems settling the specification claims.

Conventions of the embedding:
* Python `int` chip amounts are modelled as `Int`.
* The `players` dict of the source (keyed by player id, insertion
  ordered) is modelled as a `List Player`; ids are dict keys in the
  source and hence unique in every reachable state.
* Code that can raise a Python exception (`IndexError` on list
  indexing, `KeyError` on dict lookup, `pop` from an empty list) is
  modelled with `Option`, `none` standing for the raised exception.
-/

/-- Suits, as in `Card.__post_init__` after normalisation. -/
inductive Suit
  | hearts
  | diamonds
  | clubs
  | spades
deriving DecidableEq

/-- Ranks, as in the `ranks` list of `create_deck`. -/
inductive Rank
  | two | three | four | five | six | seven | eight | nine | ten
  | jack | queen | king | ace
deriving DecidableEq

/-- `Card.get_value`: numeric value 2..14 of a rank. -/
def Rank.getValue : Rank → Nat
  | .two => 2
  | .three => 3
  | .four => 4
  | .five => 5
  | .six => 6
  | .seven => 7
  | .eight => 8
  | .nine => 9
  | .ten => 10
  | .jack => 11
  | .queen => 12
  | .king => 13
  | .ace => 14

/-- A playing card (`Card` dataclass: suit and rank). -/
structure Card where
  suit : Suit
  rank : Rank
deriving DecidableEq

def Card.getValue (c : Card) : Nat := c.rank.getValue

/-- Descending sort on naturals (Python `sorted(_, reverse=True)`). -/
def sortDescNat (l : List Nat) : List Nat := List.insertionSort (· ≥ ·) l

/-- Ascending sort on integers (Python `sorted(_, reverse=False)`). -/
def sortAscInt (l : List Int) : List Int := List.insertionSort (· ≤ ·) l

/-- Numeric values of a list of cards. -/
def rankValues (cs : List Card) : List Nat := cs.map Card.getValue

/-- Number of cards of suit `s` (the `suits` count table of
`evaluate_hand`). -/
def suitCount (cs : List Card) (s : Suit) : Nat :=
  (cs.filter (fun c => decide (c.suit = s))).length

/-- The four suits in a fixed enumeration order.  At most one suit can
reach five cards among the at most seven cards `evaluate_hand`
receives, so the enumeration order never matters. -/
def allSuits : List Suit := [Suit.hearts, Suit.diamonds, Suit.clubs, Suit.spades]

/-- `is_flush`: some suit has count at least 5. -/
def isFlushOf (cs : List Card) : Bool :=
  allSuits.any (fun s => decide (5 ≤ suitCount cs s))

/-- Distinct ranks sorted descending (`unique_ranks`). -/
def uniqueRanksDesc (cs : List Card) : List Nat :=
  sortDescNat (rankValues cs).dedup

/-- The window scan of `evaluate_hand`:
`for i in range(len(u) - 4): if u[i] - u[i+4] == 4` on a descending
list, returning the first (highest) straight-high found. -/
def straightScan : List Nat → Option Nat
  | a :: b :: c :: d :: e :: rest =>
    if a - e = 4 then some a else straightScan (b :: c :: d :: e :: rest)
  | _ => none

/-- `is_straight` and `straight_high` of `evaluate_hand`: the window
scan, then the wheel test (`14,2,3,4,5` all present gives high 5). -/
def straightHighOf (cs : List Card) : Option Nat :=
  let u := uniqueRanksDesc cs
  match straightScan u with
  | some h => some h
  | none =>
    if 14 ∈ u ∧ 2 ∈ u ∧ 3 ∈ u ∧ 4 ∈ u ∧ 5 ∈ u then some 5 else none

/-- Order in which `sorted(ranks.items(), key=lambda x: (x[1], x[0]),
reverse=True)` lists `(rank, count)` pairs: larger count first, ties by
larger rank first. -/
def rcRel (a b : Nat × Nat) : Prop := b.2 < a.2 ∨ (b.2 = a.2 ∧ b.1 ≤ a.1)

instance : DecidableRel rcRel := fun a b => by unfold rcRel; exact inferInstance

/-- `rank_counts`: `(rank, count)` pairs sorted by count then rank,
both descending.  No two distinct ranks share both components, so this
order is unique and the source dict insertion order is immaterial. -/
def rankCounts (cs : List Card) : List (Nat × Nat) :=
  let vals := rankValues cs
  List.insertionSort rcRel (vals.dedup.map (fun r => (r, vals.count r)))

/-- First suit with count at least 5 (the `flush_suit` search loop). -/
def flushSuitOf (cs : List Card) : Option Suit :=
  allSuits.find? (fun s => decide (5 ≤ suitCount cs s))

/-- Descending values of the cards of the flush suit
(`straight_flush_cards` / `flush_cards` before truncation).  When no
flush suit exists the source filters against `None`, matching nothing,
which the `none` case reproduces. -/
def flushValues (cs : List Card) : List Nat :=
  match flushSuitOf cs with
  | some fs => sortDescNat (rankValues (cs.filter (fun c => decide (c.suit = fs))))
  | none => []

/-- Ranks appearing exactly once, sorted descending (the kicker lists
of `evaluate_hand`). -/
def singleRanksDesc (rc : List (Nat × Nat)) : List Nat :=
  sortDescNat ((rc.filter (fun x => decide (x.2 = 1))).map (·.1))

/-- `PokerGame.evaluate_hand`: maps hole cards plus community cards to
`(hand_rank, tiebreakers)`.  The source pre-sorts `all_cards`
descending, but every consumer (count tables, `sorted(set(..))`,
`filter` + `sorted`) is order-invariant, so the pre-sort is omitted. -/
def evaluateHand (playerCards communityCards : List Card) : Nat × List Nat :=
  let allCards := playerCards ++ communityCards
  let u := uniqueRanksDesc allCards
  let isFlush := isFlushOf allCards
  let straightHigh := straightHighOf allCards
  let rc := rankCounts allCards
  let rc0 := rc.getD 0 (0, 0)
  let rc1 := rc.getD 1 (0, 0)
  if straightHigh.isSome ∧ isFlush = true then
    if (10 ∈ u ∧ 11 ∈ u ∧ 12 ∈ u ∧ 13 ∈ u ∧ 14 ∈ u) ∧ isFlush = true ∧
        straightHigh = some 14 then
      (9, [14])
    else
      let sfc := flushValues allCards
      match straightScan sfc with
      | some h => (8, [h])
      | none =>
        if 14 ∈ sfc ∧ 5 ∈ sfc ∧ 4 ∈ sfc ∧ 3 ∈ sfc ∧ 2 ∈ sfc then (8, [5])
        else (0, [0])
  else if rc0.2 = 4 then
    (7, [rc0.1, rc1.1])
  else if rc0.2 = 3 ∧ 2 ≤ rc1.2 then
    let pairRank := (((rc.drop 1).find? (fun x => decide (2 ≤ x.2))).map (·.1)).getD 0
    (6, [rc0.1, pairRank])
  else if isFlush = true then
    (5, (flushValues allCards).take 5)
  else if straightHigh.isSome then
    (4, [straightHigh.getD 0])
  else if rc0.2 = 3 then
    (3, rc0.1 :: (singleRanksDesc rc).take 2)
  else if rc0.2 = 2 ∧ rc1.2 = 2 then
    (2, sortDescNat [rc0.1, rc1.1] ++ (singleRanksDesc rc).take 1)
  else if rc0.2 = 2 then
    (1, rc0.1 :: (singleRanksDesc rc).take 3)
  else
    (0, (sortDescNat (rankValues allCards)).take 5)

/-! ## Table state and the betting engine -/

/-- The `Player` dataclass (game-relevant fields; the socket and the
display name play no role in the claims). -/
structure Player where
  id : String
  chips : Int
  currentBet : Int
  totalBet : Int
  isFolded : Bool
  isAllIn : Bool
  cards : List Card
  hasActedThisRound : Bool
deriving DecidableEq

/-- `Player.can_act`. -/
def Player.canAct (p : Player) : Bool :=
  !p.isFolded && !p.isAllIn && decide (0 < p.chips)

/-- Default used with `List.getD`; never reached at an in-range index. -/
def defaultPlayer : Player :=
  { id := "", chips := 0, currentBet := 0, totalBet := 0, isFolded := false,
    isAllIn := false, cards := [], hasActedThisRound := false }

/-- Access to the player list by position (`list(self.players.values())[i]`). -/
def nthPlayer (l : List Player) (i : Nat) : Player := l.getD i defaultPlayer

/-- `GameState` enum. -/
inductive GameState
  | waiting | dealing | preFlop | flop | turn | river | showdown | gameOver
deriving DecidableEq

/-- The mutable fields of `PokerGame`.  The deck is a list whose LAST
element is the top card (`self.deck.pop()` pops from the end). -/
structure Game where
  players : List Player
  communityCards : List Card
  deck : List Card
  pot : Int
  currentBet : Int
  dealerPosition : Nat
  currentPlayerIndex : Int
  gameState : GameState
  smallBlind : Int
  bigBlind : Int
  actionHistory : List (String × String × Int)
  lastRaiser : Option String
deriving DecidableEq

def Game.playerIds (g : Game) : List String := g.players.map (·.id)

/-- Dict lookup `self.players[player_id]` guarded by
`player_id in self.players`. -/
def Game.findPlayer (g : Game) (pid : String) : Option Player :=
  g.players.find? (fun p => decide (p.id = pid))

/-- In-place mutation of the dict entry for `pid` (ids are dict keys in
the source, hence unique). -/
def Game.updatePlayer (g : Game) (pid : String) (f : Player → Player) : Game :=
  { g with players := g.players.map (fun p => if p.id = pid then f p else p) }

/-- Replace the element at index `i` (in-place mutation of the object
held at a known position). -/
def modifyIdx : List Player → Nat → (Player → Player) → List Player
  | [], _, _ => []
  | p :: ps, 0, f => f p :: ps
  | p :: ps, Nat.succ n, f => p :: modifyIdx ps n f

/-- Small-blind seat chosen by `post_blinds`: seat after the dealer,
except heads-up where the dealer itself is the small blind. -/
def sbIndex (g : Game) : Nat :=
  if g.players.length = 2 then g.dealerPosition
  else (g.dealerPosition + 1) % g.players.length

/-- Big-blind seat chosen by `post_blinds`: two seats after the dealer,
except heads-up where it is the seat after the dealer. -/
def bbIndex (g : Game) : Nat :=
  if g.players.length = 2 then (g.dealerPosition + 1) % 2
  else (g.dealerPosition + 2) % g.players.length

/-- Posting a blind of `amount`: chips move into the current and total
bets and the poster counts as having acted. -/
def blindPost (amount : Int) (p : Player) : Player :=
  { p with chips := p.chips - amount, currentBet := p.currentBet + amount,
           totalBet := p.totalBet + amount, hasActedThisRound := true }

/-- `PokerGame.post_blinds`. -/
def postBlinds (g : Game) : Game :=
  let sbPos := sbIndex g
  let bbPos := bbIndex g
  let sbPlayer := nthPlayer g.players sbPos
  let sbAmount := min g.smallBlind sbPlayer.chips
  let players1 := modifyIdx g.players sbPos (blindPost sbAmount)
  let bbPlayer := nthPlayer players1 bbPos
  let bbAmount := min g.bigBlind bbPlayer.chips
  let players2 := modifyIdx players1 bbPos (blindPost bbAmount)
  { g with players := players2,
           pot := g.pot + sbAmount + bbAmount,
           currentBet := (nthPlayer players2 bbPos).currentBet,
           lastRaiser := some (nthPlayer players2 bbPos).id }

/-- `self.action_history.append((player_id, action, amount))`. -/
def logAction (g : Game) (pid act : String) (amount : Int) : Game :=
  { g with actionHistory := g.actionHistory ++ [(pid, act, amount)] }

/-- The `fold` branch of `process_action` (`g` already carries the
`has_acted_this_round = True` mutation). -/
def applyFold (g : Game) (playerId : String) (amount : Int) : Bool × Game :=
  let g2 := g.updatePlayer playerId (fun p => { p with isFolded := true })
  (true, logAction g2 playerId "fold" amount)

/-- The `check` branch of `process_action`. -/
def applyCheck (g : Game) (playerId : String) (player : Player) (amount : Int) :
    Bool × Game :=
  if player.currentBet < g.currentBet then (false, g)
  else (true, logAction g playerId "check" amount)

/-- The `call` branch of `process_action`. -/
def applyCall (g : Game) (playerId : String) (player : Player) (amount : Int) :
    Bool × Game :=
  let callAmountNeeded := g.currentBet - player.currentBet
  if callAmountNeeded ≤ 0 then (false, g)
  else
    let amountToAdd := min callAmountNeeded player.chips
    let g2 := g.updatePlayer playerId (fun p =>
      let p1 : Player := { p with chips := p.chips - amountToAdd,
                                  currentBet := p.currentBet + amountToAdd,
                                  totalBet := p.totalBet + amountToAdd }
      if p1.chips = 0 then { p1 with isAllIn := true } else p1)
    (true, logAction { g2 with pot := g2.pot + amountToAdd } playerId "call" amount)

/-- The body of the re-opening loop run after a raise (and after an
all-in that increases the table bet): every other player that can act
and has not matched the new table bet must act again. -/
def resetIf (pid : String) (cb : Int) (p : Player) : Player :=
  if p.canAct = true ∧ p.id ≠ pid ∧ p.currentBet < cb then
    { p with hasActedThisRound := false }
  else p

/-- The mutation of the raiser inside the `raise` branch: the delta is
added to bets and removed from the stack; clamping or an emptied stack
sets the all-in flag. -/
def raiseUpd (amountToAdd : Int) (clamp : Bool) (p : Player) : Player :=
  let p1 : Player := { p with
    isAllIn := (if clamp = true then true else p.isAllIn),
    chips := p.chips - amountToAdd,
    currentBet := p.currentBet + amountToAdd,
    totalBet := p.totalBet + amountToAdd }
  if p1.chips = 0 then { p1 with isAllIn := true } else p1

/-- The `raise` branch of `process_action`.  `amount` is the target
total bet; a raise the player cannot afford is clamped to the chips
available, which also sets the all-in flag and adjusts the logged
amount. -/
def applyRaise (g : Game) (playerId : String) (player : Player) (amount : Int) :
    Bool × Game :=
  if amount ≤ g.currentBet then (false, g)
  else
    let clamp := decide (player.chips < amount - player.currentBet)
    let amountToAdd := if clamp = true then player.chips else amount - player.currentBet
    let loggedAmount := if clamp = true then player.currentBet + amountToAdd else amount
    let newBet := player.currentBet + amountToAdd
    let g2 := g.updatePlayer playerId (raiseUpd amountToAdd clamp)
    let g3 := { g2 with pot := g2.pot + amountToAdd, currentBet := newBet,
                        lastRaiser := some playerId }
    let g4 := { g3 with players := g3.players.map (resetIf playerId g3.currentBet) }
    (true, logAction g4 playerId "raise" loggedAmount)

/-- The mutation of the player inside the `all_in` branch: the whole
stack moves into the bets. -/
def allInUpd (allInAmount : Int) (p : Player) : Player :=
  { p with currentBet := p.currentBet + allInAmount,
           totalBet := p.totalBet + allInAmount,
           chips := 0, isAllIn := true }

/-- The `all_in` branch of `process_action`. -/
def applyAllIn (g : Game) (playerId : String) (player : Player) (amount : Int) :
    Bool × Game :=
  let allInAmount := player.chips
  let newBet := player.currentBet + allInAmount
  let g2 := g.updatePlayer playerId (allInUpd allInAmount)
  let g3 := { g2 with pot := g2.pot + allInAmount }
  let g4 :=
    if g3.currentBet < newBet then
      let g3a := { g3 with currentBet := newBet, lastRaiser := some playerId }
      { g3a with players := g3a.players.map (resetIf playerId g3a.currentBet) }
    else g3
  (true, logAction g4 playerId "all_in" amount)

/-- `PokerGame.process_action`.  Returns `none` where the source would
raise an exception (stale player index), otherwise `some (success,
state)`.  Note that `player.has_acted_this_round = True` is executed
BEFORE the per-action validity checks, so a rejected check, call or
raise still leaves that flag set. -/
def processAction (g : Game) (playerId action : String) (amount : Int) :
    Option (Bool × Game) :=
  match g.findPlayer playerId with
  | none => some (false, g)
  | some player0 =>
    if player0.canAct = false then some (false, g)
    else if g.currentPlayerIndex = -1 then some (false, g)
    else
      match g.playerIds.get? g.currentPlayerIndex.toNat with
      | none => none
      | some turnId =>
        if turnId ≠ playerId then some (false, g)
        else
          let g1 := g.updatePlayer playerId (fun p => { p with hasActedThisRound := true })
          let player := { player0 with hasActedThisRound := true }
          if action = "fold" then some (applyFold g1 playerId amount)
          else if action = "check" then some (applyCheck g1 playerId player amount)
          else if action = "call" then some (applyCall g1 playerId player amount)
          else if action = "raise" then some (applyRaise g1 playerId player amount)
          else if action = "all_in" then some (applyAllIn g1 playerId player amount)
          else some (false, g1)

/-- A player still owing action in `is_betting_round_complete`:
not all-in, and either short of the table bet or not yet acted. -/
def needsMore (cb : Int) (p : Player) : Bool :=
  !p.isAllIn && (decide (p.currentBet < cb) || !p.hasActedThisRound)

/-- `active_players_in_round`: the players that `can_act`. -/
def activePlayers (g : Game) : List Player :=
  g.players.filter (fun p => p.canAct)

/-- The final fallback of `is_betting_round_complete`: with a table bet
of zero the round is complete once every active player has acted. -/
def zeroBetCheck (g : Game) : Bool :=
  decide (g.currentBet = 0) && (activePlayers g).all (fun p => p.hasActedThisRound)

/-- `PokerServer.is_betting_round_complete`.  `none` models the
`KeyError` the source raises when `last_raiser` names a removed player;
an empty-string raiser id is falsy in Python and skips the raiser
block. -/
def isBettingRoundComplete (g : Game) : Option Bool :=
  if (activePlayers g).length ≤ 1 then some true
  else if (activePlayers g).any (needsMore g.currentBet) then some false
  else
    match g.lastRaiser with
    | some rid =>
      if rid = "" then some (zeroBetCheck g)
      else
        match g.findPlayer rid with
        | none => none
        | some _ =>
          if (activePlayers g).all (fun p => decide (p.id = rid) || !(needsMore g.currentBet p)) then
            some true
          else some (zeroBetCheck g)
    | none => some (zeroBetCheck g)

/-- A player the turn scan of `advance_to_next_player` stops at. -/
def needsToAct (cb : Int) (p : Player) : Bool :=
  p.canAct && (decide (p.currentBet < cb) || !p.hasActedThisRound)

/-- The scan loop of `advance_to_next_player`: advance the index
cyclically up to `fuel` times, stopping at the first player who still
needs to act; with no such player the index returns to its start. -/
def advanceLoop (g : Game) (idx : Int) : Nat → Int
  | 0 => idx
  | Nat.succ fuel =>
    let idx1 := (idx + 1) % (g.players.length : Int)
    if needsToAct g.currentBet (nthPlayer g.players idx1.toNat) then idx1
    else advanceLoop g idx1 fuel

/-- `PokerServer.advance_to_next_player`. -/
def advanceToNextPlayer (g : Game) : Game :=
  if g.players.length = 0 then { g with currentPlayerIndex := -1 }
  else { g with currentPlayerIndex := advanceLoop g g.currentPlayerIndex g.players.length }

/-- `PokerGame._get_player_index_after_dealer`. -/
def getPlayerIndexAfterDealer (g : Game) (startPos offset : Nat) : Int :=
  let n := g.players.length
  if n = 0 then -1
  else
    let initial := (startPos + offset) % n
    match (List.range n).find? (fun i => (nthPlayer g.players ((initial + i) % n)).canAct) with
    | some i => (((initial + i) % n : Nat) : Int)
    | none => -1

/-- `self.deck.pop()`: removes and returns the LAST list element;
`none` is the `IndexError` on an empty deck. -/
def popDeck (l : List Card) : Option (Card × List Card) :=
  match l.getLast? with
  | none => none
  | some c => some (c, l.dropLast)

/-- `for _ in range(k): if self.deck: self.community_cards.append(self.deck.pop())`:
guarded community dealing (skips silently on an empty deck). -/
def dealGuarded (deck community : List Card) : Nat → List Card × List Card
  | 0 => (deck, community)
  | Nat.succ k =>
    match popDeck deck with
    | some (c, d) => dealGuarded d (community ++ [c]) k
    | none => dealGuarded deck community k

/-- Lines 356-362 of `advance_to_next_street`: every player's
`current_bet` is added to the pot AGAIN (the betting actions already
added those chips when they were made) and then cleared, together with
the acted flags, the table bet and the last raiser. -/
def sweepBets (g : Game) : Game :=
  { g with
    pot := g.players.foldl (fun acc p => acc + p.currentBet) g.pot,
    players := g.players.map (fun p => { p with currentBet := 0, hasActedThisRound := false }),
    currentBet := 0,
    lastRaiser := none }

/-- `PokerGame.advance_to_next_street`. -/
def advanceToNextStreet (g : Game) : Option Game :=
  let g1 := sweepBets g
  let idx0 := getPlayerIndexAfterDealer g1 g1.dealerPosition 1
  let idx1 :=
    if idx0 = -1 then
      match (List.range g1.players.length).find?
          (fun i => (nthPlayer g1.players i).canAct) with
      | some i => (i : Int)
      | none => -1
    else idx0
  let g2 := { g1 with currentPlayerIndex := idx1 }
  match g2.gameState with
  | GameState.preFlop => do
    let (_, d1) ← popDeck g2.deck
    let (d2, comm) := dealGuarded d1 g2.communityCards 3
    some { g2 with deck := d2, communityCards := comm, gameState := GameState.flop }
  | GameState.flop => do
    let (_, d1) ← popDeck g2.deck
    let (d2, comm) := dealGuarded d1 g2.communityCards 1
    some { g2 with deck := d2, communityCards := comm, gameState := GameState.turn }
  | GameState.turn => do
    let (_, d1) ← popDeck g2.deck
    let (d2, comm) := dealGuarded d1 g2.communityCards 1
    some { g2 with deck := d2, communityCards := comm, gameState := GameState.river }
  | GameState.river => some { g2 with gameState := GameState.showdown }
  | _ => some g2

/-! ## Showdown: side pots and distribution -/

/-- Strict lexicographic order on Python lists of ints (a shorter list
that is a prefix of a longer one compares smaller). -/
def listLexLt : List Nat → List Nat → Bool
  | [], [] => false
  | [], _ :: _ => true
  | _ :: _, [] => false
  | a :: as, b :: bs =>
    if a < b then true else if b < a then false else listLexLt as bs

/-- Python tuple comparison on `(hand_rank, tiebreakers)` pairs. -/
def handLt (a b : Nat × List Nat) : Bool :=
  decide (a.1 < b.1) || (decide (a.1 = b.1) && listLexLt a.2 b.2)

/-- `max` over the hand strengths of a nonempty list. -/
def bestHand (h0 : Nat × List Nat) (rest : List (String × (Nat × List Nat))) :
    Nat × List Nat :=
  rest.foldl (fun b h => if handLt b h.2 then h.2 else b) h0

/-- The side-pot construction loop of `determine_winners`: thresholds
are processed ascending with `prev` the previous threshold (initially
0); each pot collects `min(level - prev, total_bet - prev)` from every
NON-FOLDED player whose `total_bet` reaches the level. -/
def buildSidePots (pw : List Player) : List Int → Int → List (Int × List String)
  | [], _ => []
  | level :: rest, prev =>
    let eligible := pw.filter (fun p => decide (level ≤ p.totalBet))
    if eligible.length = 0 then buildSidePots pw rest level
    else
      let potAmount :=
        eligible.foldl (fun acc p => acc + min (level - prev) (p.totalBet - prev)) 0
      (potAmount, eligible.map (·.id)) :: buildSidePots pw rest level

/-- Modelled from the spec: the sizing rule of claim C3 as amended —
each side pot holds `(threshold - previous) × count(non-folded players
with total_bet ≥ threshold)` and its eligible winners are exactly those
players.  Compared against `buildSidePots` below. -/
def sidePotsSpec (pw : List Player) : List Int → Int → List (Int × List String)
  | [], _ => []
  | level :: rest, prev =>
    let eligible := pw.filter (fun p => decide (level ≤ p.totalBet))
    ((level - prev) * (eligible.length : Int), eligible.map (·.id)) ::
      sidePotsSpec pw rest level

/-- `self.players[winner_id].chips += winnings`. -/
def creditChips (players : List Player) (pid : String) (w : Int) : List Player :=
  players.map (fun p => if p.id = pid then { p with chips := p.chips + w } else p)

/-- Distribution of one side pot: integer share per winner, the
remainder chips going one by one to the earliest winners; winners are
appended to the reported list at their first win.  Division operands
are nonnegative at showdown, where Python floor division and `Int`
division agree. -/
def awardPot (players : List Player) (finalWinners potWinners : List String)
    (amount : Int) : List Player × List String :=
  let share := amount / (potWinners.length : Int)
  let remainder := amount % (potWinners.length : Int)
  (potWinners.enum).foldl
    (fun acc x =>
      let w := share + (if (x.1 : Int) < remainder then 1 else 0)
      (creditChips acc.1 x.2 w,
       if x.2 ∈ acc.2 then acc.2 else acc.2 ++ [x.2]))
    (players, finalWinners)

/-- `PokerGame.determine_winners`: the pair of the reported winner list
and the state after distribution. -/
def determineWinners (g : Game) : List String × Game :=
  let pw := g.players.filter (fun p => !p.isFolded)
  if pw.length = 0 then ([], g)
  else if pw.length = 1 then
    let wid := (nthPlayer pw 0).id
    ([wid], { g with players := creditChips g.players wid g.pot, pot := 0 })
  else
    let playerHands : List (String × (Nat × List Nat)) :=
      pw.map (fun p => (p.id, evaluateHand p.cards g.communityCards))
    let allBets := sortAscInt (pw.map (·.totalBet)).dedup
    let sidePots := buildSidePots pw allBets 0
    let distributed := sidePots.foldl
      (fun acc potInfo =>
        let eligibleHands := playerHands.filter (fun h => decide (h.1 ∈ potInfo.2))
        match eligibleHands with
        | [] => acc
        | h0 :: rest =>
          let best := bestHand h0.2 rest
          let potWinners := (eligibleHands.filter (fun h => decide (h.2 = best))).map (·.1)
          if potWinners.length = 0 then acc
          else awardPot acc.1 acc.2 potWinners potInfo.1)
      (g.players, ([] : List String))
    (distributed.2, { g with players := distributed.1, pot := 0 })

/-! ## Chip accounting -/

def sumChips (g : Game) : Int := g.players.foldl (fun acc p => acc + p.chips) 0

def sumCurrentBets (g : Game) : Int := g.players.foldl (fun acc p => acc + p.currentBet) 0

/-- The conserved quantity named by the specification: all stacks plus
the pot plus all current (street) bets. -/
def chipQuantity (g : Game) : Int := sumChips g + g.pot + sumCurrentBets g

/-- Run one submitted action, keeping the state only when the action is
accepted (`process_action` returned `True`). -/
def stepAction (g : Game) (pid act : String) (amount : Int) : Option Game :=
  match processAction g pid act amount with
  | some (true, g2) => some g2
  | _ => none

/-! ## Concrete instances used by the claim theorems -/

/-- Build a player with the given id, chips, current bet, total bet,
folded flag, all-in flag and acted flag, and no hole cards. -/
def mkP (i : String) (c cb tb : Int) (f a acted : Bool) : Player :=
  { id := i, chips := c, currentBet := cb, totalBet := tb, isFolded := f,
    isAllIn := a, cards := [], hasActedThisRound := acted }

/-- An arbitrary concrete remainder of the deck (top card last). -/
def someDeck : List Card :=
  [⟨.hearts, .two⟩, ⟨.hearts, .three⟩, ⟨.hearts, .four⟩, ⟨.hearts, .five⟩,
   ⟨.hearts, .six⟩, ⟨.hearts, .seven⟩]

/-- Fresh heads-up hand: dealer seat 0, both stacks 1000, pre-flop,
first actor seat 1 as `start_new_hand` computes for two seats. -/
def c1g0 : Game :=
  { players := [mkP "A" 1000 0 0 false false false, mkP "B" 1000 0 0 false false false],
    communityCards := [], deck := someDeck, pot := 0, currentBet := 0,
    dealerPosition := 0, currentPlayerIndex := 1, gameState := GameState.preFlop,
    smallBlind := 10, bigBlind := 20, actionHistory := [], lastRaiser := none }

/-- The pre-flop round of `c1g0` played out: blinds posted, the big
blind checks, the turn passes to the small blind, who calls. -/
def c1trace : Option Game :=
  (stepAction (postBlinds c1g0) "B" "check" 0).map advanceToNextPlayer
  |>.bind (fun g => stepAction g "A" "call" 0)

/-- Pre-flop state where it is the turn of player `A`, who has bet
nothing while the table bet is the posted big blind of 20. -/
def c4g : Game :=
  { players := [mkP "A" 1000 0 0 false false false, mkP "B" 980 20 20 false false true],
    communityCards := [], deck := [], pot := 20, currentBet := 20,
    dealerPosition := 0, currentPlayerIndex := 0, gameState := GameState.preFlop,
    smallBlind := 10, bigBlind := 20, actionHistory := [], lastRaiser := some "B" }

/-- State where `A` has raised the table bet to 100 and `B`, holding
only 50 chips, is to act. -/
def c7g : Game :=
  { players := [mkP "A" 900 100 100 false false true, mkP "B" 50 0 0 false false false],
    communityCards := [], deck := [], pot := 100, currentBet := 100,
    dealerPosition := 0, currentPlayerIndex := 1, gameState := GameState.preFlop,
    smallBlind := 10, bigBlind := 20, actionHistory := [], lastRaiser := some "A" }

/-- The community cards of the side-pot scenario: no flush, no straight
and no board pair, so hole pairs decide. -/
def c3board : List Card :=
  [⟨.hearts, .two⟩, ⟨.spades, .seven⟩, ⟨.hearts, .nine⟩, ⟨.diamonds, .jack⟩, ⟨.clubs, .queen⟩]

/-- Showdown state of the side-pot scenario: `A` all-in for 100 with
the best hand (aces), `B` and `C` in for 300 each, `B` (kings) beating
`C` (no pair). -/
def c3s : Game :=
  { players :=
      [{ mkP "A" 0 0 100 false true false with cards := [⟨.spades, .ace⟩, ⟨.diamonds, .ace⟩] },
       { mkP "B" 700 0 300 false false false with cards := [⟨.spades, .king⟩, ⟨.diamonds, .king⟩] },
       { mkP "C" 700 0 300 false false false with cards := [⟨.spades, .three⟩, ⟨.diamonds, .four⟩] }],
    communityCards := c3board, deck := [], pot := 700, currentBet := 0,
    dealerPosition := 0, currentPlayerIndex := -1, gameState := GameState.showdown,
    smallBlind := 10, bigBlind := 20, actionHistory := [], lastRaiser := none }

/-- Showdown state with two all-in survivors (`A`, `B`, total bet 100
each) and one FOLDED player `C` who also contributed 100. -/
def c3cex : Game :=
  { players := [mkP "A" 0 0 100 false true false, mkP "B" 0 0 100 false true false,
                mkP "C" 0 0 100 true false false],
    communityCards := c3board, deck := [], pot := 300, currentBet := 0,
    dealerPosition := 0, currentPlayerIndex := -1, gameState := GameState.showdown,
    smallBlind := 10, bigBlind := 20, actionHistory := [], lastRaiser := none }

/-- The non-folded players of `c3cex`. -/
def c3cexPw : List Player := c3cex.players.filter (fun p => !p.isFolded)

/-- Flop state where both players have matched the bet of 20 and acted;
`B` is to act and raises to 60. -/
def c6wg : Game :=
  { players := [mkP "A" 980 20 20 false false true, mkP "B" 500 20 20 false false true],
    communityCards := [], deck := [], pot := 40, currentBet := 20,
    dealerPosition := 0, currentPlayerIndex := 1, gameState := GameState.flop,
    smallBlind := 10, bigBlind := 20, actionHistory := [], lastRaiser := none }

/-- The state reached from `c6wg` by the accepted raise to 60. -/
def c6post : Game := ((processAction c6wg "B" "raise" 60).getD (false, c6wg)).2

/-- Pre-flop state with three eligible players, all matched to the
table bet of 20 and all having acted; the big blind was the raiser. -/
def c2wg : Game :=
  { players := [mkP "A" 980 20 20 false false true, mkP "B" 980 20 20 false false true,
                mkP "C" 980 20 20 false false true],
    communityCards := [], deck := [], pot := 60, currentBet := 20,
    dealerPosition := 0, currentPlayerIndex := 0, gameState := GameState.preFlop,
    smallBlind := 10, bigBlind := 20, actionHistory := [], lastRaiser := some "C" }

/-- `c2wg` with the acted flag of player `A` flipped to false. -/
def c2wgFlip : Game :=
  { c2wg with players := [mkP "A" 980 20 20 false false false,
                          mkP "B" 980 20 20 false false true,
                          mkP "C" 980 20 20 false false true] }

/-- Fresh 3-player hand, dealer seat 0, used for the blind claims. -/
def c10g0 : Game :=
  { players := [mkP "P0" 1000 0 0 false false false, mkP "P1" 1000 0 0 false false false,
                mkP "P2" 1000 0 0 false false false],
    communityCards := [], deck := [], pot := 0, currentBet := 0,
    dealerPosition := 0, currentPlayerIndex := 0, gameState := GameState.preFlop,
    smallBlind := 10, bigBlind := 20, actionHistory := [], lastRaiser := none }

/-- Pre-flop round of `c10g0`: blinds posted, `P0` calls, the turn
advances, `P1` calls; the big blind `P2` never submits an action. -/
def c10res : Option Game :=
  (stepAction (postBlinds c10g0) "P0" "call" 0).map advanceToNextPlayer
  |>.bind (fun g => stepAction g "P1" "call" 0)

/-- Fresh 3-player pre-flop hand whose big blind (seat 2) holds only 5
chips, so posting clamps the big blind to 5 while the small blind puts
in 10. -/
def c2cexG0 : Game :=
  { players := [mkP "P0" 1000 0 0 false false false, mkP "P1" 1000 0 0 false false false,
                mkP "P2" 5 0 0 false false false],
    communityCards := [], deck := [], pot := 0, currentBet := 0,
    dealerPosition := 0, currentPlayerIndex := 0, gameState := GameState.preFlop,
    smallBlind := 10, bigBlind := 20, actionHistory := [], lastRaiser := none }

/-- The state reached from `c2cexG0` by posting the blinds (small blind
10, big blind clamped to 5, table bet 5) and an accepted call of 5 by
`P0`: the small blind `P1` can act with a bet of 10, above the table
bet of 5. -/
def c2cex : Option Game := stepAction (postBlinds c2cexG0) "P0" "call" 0

/-- Fresh heads-up hand used for the blind-posting claims: dealer seat
0, two seated players. -/
def c9g : Game :=
  { players := [mkP "A" 1000 0 0 false false false, mkP "B" 1000 0 0 false false false],
    communityCards := [], deck := [], pot := 0, currentBet := 0,
    dealerPosition := 0, currentPlayerIndex := 1, gameState := GameState.preFlop,
    smallBlind := 10, bigBlind := 20, actionHistory := [], lastRaiser := none }

/-! ## Claim theorems -/

/-- C1: chip conservation fails on the code.  Along the fully legal
heads-up pre-flop round of `c1trace` (blinds, an accepted check, an
accepted call, a street advance taken only once the round is complete),
the quantity `Σ chips + pot + Σ current_bet` moves from 2000 to 2030 at
the blinds and to 2040 at the call, because every bet is added to the
pot at action time while still counted in `current_bet`; and the
alternative reading `Σ chips + pot` (bets considered already collected)
holds at 2000 through the actions but jumps to 2040 at
`advance_to_next_street`, which adds all `current_bet`s to the pot a
second time. -/
theorem c1_chip_conservation_fails :
    chipQuantity c1g0 = 2000 ∧
    chipQuantity (postBlinds c1g0) = 2030 ∧
    c1trace.bind isBettingRoundComplete = some true ∧
    c1trace.map (fun g => (chipQuantity g, sumChips g + g.pot)) = some (2040, 2000) ∧
    (c1trace.bind advanceToNextStreet).map (fun g => (chipQuantity g, sumChips g + g.pot))
      = some (2040, 2040) := by
  decide

/-- C4: rejected actions are not atomic.  In `c4g` player `A` submits a
check while short of the table bet; `process_action` rejects it
(returns `False`) yet `A.has_acted_this_round` has been flipped from
`false` to `true`, so the table state is mutated. -/
theorem c4_rejected_check_mutates_state :
    c4g.players.map (·.hasActedThisRound) = [false, true] ∧
    (processAction c4g "A" "check" 0).map
        (fun r => (r.1, r.2.players.map (·.hasActedThisRound), r.2.pot,
                   r.2.players.map (·.chips), r.2.actionHistory))
      = some (false, [true, true], 20, [1000, 980], []) :=
  ⟨rfl, rfl⟩

/-- C5 counterexample: the first evaluator vector of the claim is
wrong.  The seven cards 2♣ 7♦ 9♥ K♠ K♦ 3♣ 3♦ hold two pairs (kings and
threes with a 9 kicker), not a full house; `evaluate_hand` returns
category 2, not the claimed category 6. -/
theorem c5_first_vector_is_two_pair :
    evaluateHand [⟨.clubs, .two⟩, ⟨.diamonds, .seven⟩]
      [⟨.hearts, .nine⟩, ⟨.spades, .king⟩, ⟨.diamonds, .king⟩,
       ⟨.clubs, .three⟩, ⟨.diamonds, .three⟩] = (2, [13, 3, 9]) ∧
    (2 ≠ 6 ∧ ¬ (2, ([13, 3, 9] : List Nat)).1 = 6) := by
  decide

/-- C5 as amended: the first vector returns category 2 (two pair,
kings over threes, kicker 9); the royal-flush vector returns category 9
with tiebreak `[14]`; the wheel vector (with 8♦ and 10♣ as the extra
cards, giving no flush and no pair) returns category 4 with tiebreak
`[5]`. -/
theorem c5_evaluator_vectors :
    evaluateHand [⟨.clubs, .two⟩, ⟨.diamonds, .seven⟩]
      [⟨.hearts, .nine⟩, ⟨.spades, .king⟩, ⟨.diamonds, .king⟩,
       ⟨.clubs, .three⟩, ⟨.diamonds, .three⟩] = (2, [13, 3, 9]) ∧
    evaluateHand [⟨.hearts, .ten⟩, ⟨.hearts, .jack⟩, ⟨.hearts, .queen⟩,
      ⟨.hearts, .king⟩, ⟨.hearts, .ace⟩] [] = (9, [14]) ∧
    evaluateHand [⟨.spades, .ace⟩, ⟨.spades, .two⟩]
      [⟨.diamonds, .three⟩, ⟨.clubs, .four⟩, ⟨.hearts, .five⟩,
       ⟨.diamonds, .eight⟩, ⟨.clubs, .ten⟩] = (4, [5]) := by
  decide

/-- C7: the table-bet invariant fails on an accepted clamped raise.  In
`c7g` the table bet is 100 and `B` (50 chips, no bet yet) raises to
150; the raise is accepted, the delta is clamped to the 50 available
chips, and the table `current_bet` is then assigned `B`'s resulting bet
of 50 — it DECREASES from 100 and falls below the maximum bet (100,
held by non-folded `A`). -/
theorem c7_clamped_raise_lowers_table_bet :
    c7g.currentBet = 100 ∧
    (processAction c7g "B" "raise" 150).map
        (fun r => (r.1, r.2.currentBet,
                   (r.2.players.filter (fun p => !p.isFolded)).map (·.currentBet)))
      = some (true, 50, [100, 50]) := by
  decide

/-- C8: category precedence fails.  The seven cards A♥ 2♥ 5♥ J♥ K♥ 3♦
4♣ contain a flush (five hearts) and a straight (the wheel) but no
five-card straight within the hearts, and `evaluate_hand` returns
`(0, [0])` — the branch its own comment calls unreachable — instead of
the flush category 5 the precedence demands. -/
theorem c8_flush_plus_straight_returns_zero :
    isFlushOf [⟨.hearts, .ace⟩, ⟨.hearts, .two⟩, ⟨.hearts, .five⟩, ⟨.hearts, .jack⟩,
      ⟨.hearts, .king⟩, ⟨.diamonds, .three⟩, ⟨.clubs, .four⟩] = true ∧
    straightHighOf [⟨.hearts, .ace⟩, ⟨.hearts, .two⟩, ⟨.hearts, .five⟩, ⟨.hearts, .jack⟩,
      ⟨.hearts, .king⟩, ⟨.diamonds, .three⟩, ⟨.clubs, .four⟩] = some 5 ∧
    straightScan (flushValues [⟨.hearts, .ace⟩, ⟨.hearts, .two⟩, ⟨.hearts, .five⟩,
      ⟨.hearts, .jack⟩, ⟨.hearts, .king⟩, ⟨.diamonds, .three⟩, ⟨.clubs, .four⟩]) = none ∧
    evaluateHand [⟨.hearts, .ace⟩, ⟨.hearts, .two⟩]
      [⟨.hearts, .five⟩, ⟨.hearts, .jack⟩, ⟨.hearts, .king⟩,
       ⟨.diamonds, .three⟩, ⟨.clubs, .four⟩] = (0, [0]) := by
  decide

/-- C3 counterexample: side pots are sized from NON-FOLDED players
only.  In `c3cex`, survivors `A` and `B` and folded `C` each have
`total_bet = 100`; the single side pot the code builds holds
`100 × 2 = 200` with eligibles `[A, B]`, whereas the claim's formula
`(threshold - previous) × count(ALL players with total_bet ≥
threshold)` gives `100 × 3 = 300`; the folded contribution is simply
lost when the pot is zeroed. -/
theorem c3_sizing_ignores_folded_players :
    buildSidePots c3cexPw (sortAscInt (c3cexPw.map (·.totalBet)).dedup) 0
      = [(200, ["A", "B"])] ∧
    (100 - 0) * ((c3cex.players.filter (fun p => decide ((100 : Int) ≤ p.totalBet))).length : Int)
      = 300 ∧
    (200 : Int) ≠ 300 ∧
    (determineWinners c3cex).2.players.map (·.chips) = [100, 100, 0] := by
  decide

/-- For players all reaching threshold `t`, each contributes exactly
`t - prev` to the side pot of that level. -/
theorem foldl_min_const (t prev : Int) :
    ∀ (l : List Player) (acc : Int), (∀ p ∈ l, t ≤ p.totalBet) → prev ≤ t →
      l.foldl (fun a p => a + min (t - prev) (p.totalBet - prev)) acc
        = acc + (t - prev) * (l.length : Int) := by
  intro l
  induction l with
  | nil => intro acc _ _; simp
  | cons p ps ih =>
    intro acc h hpt
    have hmin : min (t - prev) (p.totalBet - prev) = t - prev := by
      have := h p (List.mem_cons_self p ps)
      omega
    simp only [List.foldl_cons, hmin, List.length_cons]
    rw [ih (acc + (t - prev)) (fun q hq => h q (List.mem_cons_of_mem p hq)) hpt]
    push_cast
    ring

/-- C3 as amended: for thresholds listed ascending from a starting
previous level, each realised by some non-folded player, the side pots
the code builds have size `(threshold - previous) × count(NON-FOLDED
players with total_bet ≥ threshold)` and eligibles exactly the
non-folded players reaching the threshold (`sidePotsSpec`); and in the
concrete scenario (A all-in for 100 with the best hand, B and C in for
300, B beating C) A receives 300, B receives 400 and the reported
winners are `[A, B]`, a total of 700 distributed. -/
theorem c3_side_pot_sizing (pw : List Player) (levels : List Int) (prev : Int)
    (hsorted : List.Chain' (· ≤ ·) (prev :: levels))
    (hwit : ∀ t ∈ levels, ∃ p ∈ pw, t ≤ p.totalBet) :
    buildSidePots pw levels prev = sidePotsSpec pw levels prev ∧
    ((determineWinners c3s).1 = ["A", "B"] ∧
     (determineWinners c3s).2.players.map (·.chips) = [300, 1100, 700] ∧
     (determineWinners c3s).2.pot = 0 ∧
     buildSidePots (c3s.players.filter (fun p => !p.isFolded))
       (sortAscInt ((c3s.players.filter (fun p => !p.isFolded)).map (·.totalBet)).dedup) 0
       = [(300, ["A", "B", "C"]), (400, ["B", "C"])]) := by
  constructor
  · induction levels generalizing prev with
    | nil => rfl
    | cons t rest ih =>
      obtain ⟨p, hp, hpt⟩ := hwit t (List.mem_cons_self t rest)
      have hple : prev ≤ t := (List.chain'_cons.mp hsorted).1
      have hmem : p ∈ pw.filter (fun q => decide (t ≤ q.totalBet)) :=
        List.mem_filter.mpr ⟨hp, by simpa using hpt⟩
      have hne : ¬ (pw.filter (fun q => decide (t ≤ q.totalBet))).length = 0 := by
        intro h0
        rw [List.length_eq_zero] at h0
        rw [h0] at hmem
        exact absurd hmem (List.not_mem_nil p)
      simp only [buildSidePots, sidePotsSpec, if_neg hne]
      rw [foldl_min_const t prev (pw.filter (fun q => decide (t ≤ q.totalBet))) 0
            (fun q hq => by simpa using (List.mem_filter.mp hq).2) hple,
          ih t (List.chain'_cons.mp hsorted).2
            (fun s hs2 => hwit s (List.mem_cons_of_mem t hs2))]
      simp
  · decide

/-- Witness for C3: the sizing equality applied at the concrete
one-threshold instance of `c3cex`, plus the scenario outcome. -/
theorem c3_side_pot_sizing_witness :
    buildSidePots c3cexPw [100] 0 = sidePotsSpec c3cexPw [100] 0 ∧
    (determineWinners c3s).1 = ["A", "B"] :=
  ⟨(c3_side_pot_sizing c3cexPw [100] 0
      (by norm_num [List.chain'_cons, List.chain'_singleton]) (by decide)).1,
   (c3_side_pot_sizing c3cexPw [100] 0
      (by norm_num [List.chain'_cons, List.chain'_singleton]) (by decide)).2.1⟩

/-- A list has an element satisfying `f` exactly when not all elements
satisfy `gq`, provided `f` is pointwise the negation of `gq`. -/
theorem any_eq_bnot_all (l : List Player) (f gq : Player → Bool)
    (h : ∀ x ∈ l, f x = !(gq x)) : l.any f = !(l.all gq) := by
  induction l with
  | nil => rfl
  | cons a as ih =>
    simp only [List.any_cons, List.all_cons, Bool.not_and]
    rw [h a (List.mem_cons_self a as), ih (fun x hx => h x (List.mem_cons_of_mem a hx))]

/-- C2 counterexample: the claimed iff with EQUALITY is false on a
reachable state.  In `c2cex` — blinds posted with a short-stacked big
blind, then an accepted call — two players can act, the small blind's
current bet (10) is not equal to the table bet (5), yet
`is_betting_round_complete` returns true through the last-raiser
shortcut. -/
theorem c2_round_complete_equality_fails :
    c2cex.bind isBettingRoundComplete = some true ∧
    c2cex.map (fun g => (activePlayers g).length) = some 2 ∧
    c2cex.map (fun g => (activePlayers g).all
        (fun p => decide (p.currentBet = g.currentBet) && p.hasActedThisRound))
      = some false := by
  decide

/-- C2 as amended: on any state whose last raiser, when set, is a
seated player with a nonempty id (true whenever a bet has been made
this street; without it the source raises `KeyError`),
`is_betting_round_complete` returns true exactly when at most one
player can act, or every player that can act has a current bet of AT
LEAST the table bet and has acted this round.  Flipping one acted flag
falsifies the right-hand side and hence the result. -/
theorem c2_round_complete_iff (g : Game)
    (hlr : match g.lastRaiser with
           | some rid => rid ≠ "" ∧ ∃ p ∈ g.players, p.id = rid
           | none => g.currentBet = 0) :
    isBettingRoundComplete g =
      some (decide ((activePlayers g).length ≤ 1) ||
        (activePlayers g).all
          (fun p => decide (g.currentBet ≤ p.currentBet) && p.hasActedThisRound)) := by
  have hkey : ∀ p ∈ activePlayers g, needsMore g.currentBet p
      = !(decide (g.currentBet ≤ p.currentBet) && p.hasActedThisRound) := by
    intro p hp
    have hmem := List.mem_filter.mp hp
    have hpc : p.canAct = true := by simpa using hmem.2
    have hni : p.isAllIn = false := by
      cases ha : p.isAllIn
      · rfl
      · exfalso
        unfold Player.canAct at hpc
        rw [ha] at hpc
        simp at hpc
    unfold needsMore
    rw [hni]
    by_cases hb : g.currentBet ≤ p.currentBet
    · have hnlt : ¬ p.currentBet < g.currentBet := not_lt.mpr hb
      simp [hb, hnlt]
    · have hlt : p.currentBet < g.currentBet := not_le.mp hb
      simp [hb, hlt]
  have hany : (activePlayers g).any (needsMore g.currentBet)
      = !((activePlayers g).all
          (fun p => decide (g.currentBet ≤ p.currentBet) && p.hasActedThisRound)) :=
    any_eq_bnot_all _ _ _ hkey
  unfold isBettingRoundComplete
  by_cases hlen : (activePlayers g).length ≤ 1
  · rw [if_pos hlen]
    simp [hlen]
  · rw [if_neg hlen]
    by_cases hall : (activePlayers g).all
        (fun p => decide (g.currentBet ≤ p.currentBet) && p.hasActedThisRound) = true
    · rw [if_neg (by rw [hany, hall]; simp)]
      cases hr : g.lastRaiser with
      | some rid =>
        rw [hr] at hlr
        obtain ⟨hrne, p0, hp0, hpid⟩ := hlr
        simp only [if_neg hrne]
        cases hfind : g.findPlayer rid with
        | none =>
          exfalso
          have := List.find?_eq_none.mp hfind p0 hp0
          simp [hpid] at this
        | some q =>
          have hallr : (activePlayers g).all
              (fun p => decide (p.id = rid) || !(needsMore g.currentBet p)) = true := by
            rw [List.all_eq_true]
            intro p hp
            rw [hkey p hp, List.all_eq_true.mp hall p hp]
            simp
          rw [if_pos hallr, hall]
          simp
      | none =>
        rw [hr] at hlr
        have hacted : (activePlayers g).all (fun p => p.hasActedThisRound) = true := by
          rw [List.all_eq_true]
          intro p hp
          have h2 : g.currentBet ≤ p.currentBet ∧ p.hasActedThisRound = true := by
            simpa using List.all_eq_true.mp hall p hp
          exact h2.2
        have hz : zeroBetCheck g = true := by
          unfold zeroBetCheck
          rw [hacted, hlr]
          simp
        dsimp only
        rw [hz, hall]
        simp
    · have hallf : (activePlayers g).all
          (fun p => decide (g.currentBet ≤ p.currentBet) && p.hasActedThisRound) = false := by
        revert hall
        cases (activePlayers g).all
          (fun p => decide (g.currentBet ≤ p.currentBet) && p.hasActedThisRound) <;> simp
      rw [if_pos (by rw [hany, hallf]; simp), hallf]
      have hlenf : decide ((activePlayers g).length ≤ 1) = false := by
        simpa using hlen
      rw [hlenf]
      simp

/-- Witness for C2: three eligible players all matched to the table bet
of 20 and all acted make the round complete; flipping one acted flag
makes it incomplete. -/
theorem c2_round_complete_iff_witness :
    isBettingRoundComplete c2wg = some true ∧
    isBettingRoundComplete c2wgFlip = some false :=
  ⟨(c2_round_complete_iff c2wg
      (show ("C" : String) ≠ "" ∧ ∃ p ∈ c2wg.players, p.id = "C" by decide)).trans
      (by decide),
   (c2_round_complete_iff c2wgFlip
      (show ("C" : String) ≠ "" ∧ ∃ p ∈ c2wgFlip.players, p.id = "C" by decide)).trans
      (by decide)⟩

/-- Positional access commutes with `map` at in-range indices. -/
theorem nthPlayer_map (f : Player → Player) (l : List Player) :
    ∀ i : Nat, i < l.length → nthPlayer (l.map f) i = f (nthPlayer l i) := by
  induction l with
  | nil => intro i h; exact absurd h (by simp)
  | cons a as ih =>
    intro i h
    cases i with
    | zero => rfl
    | succ n => exact ih n (by simpa using Nat.lt_of_succ_lt_succ h)

/-- Positional access past the end yields the default player. -/
theorem nthPlayer_ge (l : List Player) (i : Nat) (h : l.length ≤ i) :
    nthPlayer l i = defaultPlayer := by
  unfold nthPlayer
  induction l generalizing i with
  | nil => cases i <;> rfl
  | cons a as ih =>
    cases i with
    | zero => exact absurd h (by simp)
    | succ n => exact ih n (by simpa using h)

/-- Mapping an id-preserving function over the players preserves every
positional id. -/
theorem nthPlayer_map_id (f : Player → Player) (hf : ∀ p, (f p).id = p.id)
    (l : List Player) (i : Nat) :
    (nthPlayer (l.map f) i).id = (nthPlayer l i).id := by
  by_cases h : i < l.length
  · rw [nthPlayer_map f l i h, hf]
  · rw [nthPlayer_ge l i (le_of_not_lt h),
        nthPlayer_ge (l.map f) i (by simpa using le_of_not_lt h)]

/-- A per-id update (the dict mutation pattern of the source) leaves
every position with a different id untouched. -/
theorem nthPlayer_update_ne (l : List Player) (pid : String) (f : Player → Player)
    (i : Nat) (hne : (nthPlayer l i).id ≠ pid) :
    nthPlayer (l.map (fun p => if p.id = pid then f p else p)) i = nthPlayer l i := by
  by_cases h : i < l.length
  · rw [nthPlayer_map _ l i h, if_neg hne]
  · rw [nthPlayer_ge l i (le_of_not_lt h),
        nthPlayer_ge (l.map _) i (by simpa using le_of_not_lt h)]

theorem resetIf_id (pid : String) (cb : Int) (p : Player) :
    (resetIf pid cb p).id = p.id := by
  unfold resetIf; split <;> rfl

theorem resetIf_currentBet (pid : String) (cb : Int) (p : Player) :
    (resetIf pid cb p).currentBet = p.currentBet := by
  unfold resetIf; split <;> rfl

theorem resetIf_canAct (pid : String) (cb : Int) (p : Player) :
    (resetIf pid cb p).canAct = p.canAct := by
  unfold resetIf
  split
  · show Player.canAct { p with hasActedThisRound := false } = p.canAct
    unfold Player.canAct
    rfl
  · rfl

theorem resetIf_resets (pid : String) (cb : Int) (p : Player)
    (hne : p.id ≠ pid) (hca : p.canAct = true) (hlt : p.currentBet < cb) :
    (resetIf pid cb p).hasActedThisRound = false := by
  unfold resetIf
  rw [if_pos ⟨hca, hne, hlt⟩]

theorem resetIf_keeps (pid : String) (cb : Int) (p : Player)
    (heq : p.currentBet = cb) :
    (resetIf pid cb p).hasActedThisRound = p.hasActedThisRound := by
  unfold resetIf
  split
  · next hcond => exact absurd (heq ▸ hcond.2.2) (lt_irrefl cb)
  · rfl

/-- Positional facts about the player list after the re-opening loop
at table bet `cb`: ids and bets are untouched, and for every position
held by a player other than the raiser, the acted flag is false when
the player can act below `cb`, and unchanged when the player has
matched `cb`. -/
theorem reset_players_props (ps : List Player) (pid : String) (cb : Int) (i : Nat) :
    (nthPlayer (ps.map (resetIf pid cb)) i).id = (nthPlayer ps i).id ∧
    (nthPlayer (ps.map (resetIf pid cb)) i).currentBet = (nthPlayer ps i).currentBet ∧
    ((nthPlayer ps i).id ≠ pid →
      ((nthPlayer (ps.map (resetIf pid cb)) i).canAct = true →
        (nthPlayer (ps.map (resetIf pid cb)) i).currentBet < cb →
        (nthPlayer (ps.map (resetIf pid cb)) i).hasActedThisRound = false) ∧
      ((nthPlayer (ps.map (resetIf pid cb)) i).currentBet = cb →
        (nthPlayer (ps.map (resetIf pid cb)) i).hasActedThisRound
          = (nthPlayer ps i).hasActedThisRound)) := by
  by_cases h : i < ps.length
  · rw [nthPlayer_map _ _ _ h]
    refine ⟨resetIf_id pid cb _, resetIf_currentBet pid cb _, fun hne => ⟨?_, ?_⟩⟩
    · intro hca hlt
      rw [resetIf_canAct] at hca
      rw [resetIf_currentBet] at hlt
      exact resetIf_resets pid cb _ hne hca hlt
    · intro heq
      rw [resetIf_currentBet] at heq
      exact resetIf_keeps pid cb _ heq
  · rw [nthPlayer_ge ps i (le_of_not_lt h),
        nthPlayer_ge (ps.map _) i (by simpa using le_of_not_lt h)]
    exact ⟨rfl, rfl, fun _ => ⟨fun hca _ => absurd hca (by decide), fun _ => rfl⟩⟩


theorem raiseUpd_id (amountToAdd : Int) (clamp : Bool) (p : Player) :
    (raiseUpd amountToAdd clamp p).id = p.id := by
  simp only [raiseUpd]
  split <;> rfl

theorem allInUpd_id (allInAmount : Int) (p : Player) :
    (allInUpd allInAmount p).id = p.id := rfl

/-- `Game.updatePlayer` unfolded to its `map` form. -/
theorem updatePlayer_players (g : Game) (pid : String) (f : Player → Player) :
    (g.updatePlayer pid f).players
      = g.players.map (fun p => if p.id = pid then f p else p) := rfl

/-- `Game.updatePlayer` only touches the player list. -/
theorem updatePlayer_currentBet (g : Game) (pid : String) (f : Player → Player) :
    (g.updatePlayer pid f).currentBet = g.currentBet := rfl

/-- Re-opening property of the `raise` branch, relative to the state
`g1` it receives (the state already carrying the acted-flag mutation)
and the accepted result `gr`. -/
theorem applyRaise_reopens (g1 : Game) (pid : String) (player : Player) (amount : Int)
    (gr : Game) (h : applyRaise g1 pid player amount = (true, gr)) :
    ∀ i : Nat,
      (nthPlayer gr.players i).id = (nthPlayer g1.players i).id ∧
      ((nthPlayer g1.players i).id ≠ pid →
        (nthPlayer gr.players i).currentBet = (nthPlayer g1.players i).currentBet ∧
        ((nthPlayer gr.players i).canAct = true →
          (nthPlayer gr.players i).currentBet < gr.currentBet →
          (nthPlayer gr.players i).hasActedThisRound = false) ∧
        ((nthPlayer gr.players i).currentBet = gr.currentBet →
          (nthPlayer gr.players i).hasActedThisRound
            = (nthPlayer g1.players i).hasActedThisRound)) := by
  unfold applyRaise at h
  split at h
  · simp at h
  next hgt =>
    rw [Prod.ext_iff] at h
    replace h := h.2
    dsimp only at h
    have hcb : gr.currentBet = player.currentBet +
        (if decide (player.chips < amount - player.currentBet) = true then player.chips
         else amount - player.currentBet) := by
      rw [← h]
      rfl
    have hpl : gr.players =
        (g1.players.map (fun p => if p.id = pid then
            raiseUpd (if decide (player.chips < amount - player.currentBet) = true
                      then player.chips else amount - player.currentBet)
                     (decide (player.chips < amount - player.currentBet)) p
          else p)).map
          (resetIf pid (player.currentBet +
            (if decide (player.chips < amount - player.currentBet) = true then player.chips
             else amount - player.currentBet))) := by
      rw [← h]
      rw [updatePlayer_players]
      rfl
    intro i
    have hwrapid : ∀ p : Player,
        ((fun p : Player => if p.id = pid then
            raiseUpd (if decide (player.chips < amount - player.currentBet) = true
                      then player.chips else amount - player.currentBet)
                     (decide (player.chips < amount - player.currentBet)) p
          else p) p).id = p.id := by
      intro p
      dsimp only
      split
      · rw [raiseUpd_id]
      · rfl
    constructor
    · rw [hpl]
      exact (nthPlayer_map_id _ (resetIf_id _ _) _ i).trans
        (nthPlayer_map_id _ hwrapid g1.players i)
    · intro hne
      have hmid := nthPlayer_update_ne g1.players pid
        (raiseUpd (if decide (player.chips < amount - player.currentBet) = true
                   then player.chips else amount - player.currentBet)
                  (decide (player.chips < amount - player.currentBet))) i hne
      have props := reset_players_props
        (g1.players.map (fun p => if p.id = pid then
            raiseUpd (if decide (player.chips < amount - player.currentBet) = true
                      then player.chips else amount - player.currentBet)
                     (decide (player.chips < amount - player.currentBet)) p
          else p)) pid
        (player.currentBet +
          (if decide (player.chips < amount - player.currentBet) = true then player.chips
           else amount - player.currentBet)) i
      rw [hmid] at props
      refine ⟨?_, ?_, ?_⟩
      · rw [hpl]
        exact props.2.1
      · rw [hpl, hcb]
        exact (props.2.2 hne).1
      · rw [hpl, hcb]
        exact (props.2.2 hne).2

/-- Re-opening property of the `all_in` branch, in the case where the
all-in increased the table bet. -/
theorem applyAllIn_reopens (g1 : Game) (pid : String) (player : Player) (amount : Int)
    (gr : Game) (h : applyAllIn g1 pid player amount = (true, gr))
    (hinc : g1.currentBet < gr.currentBet) :
    ∀ i : Nat,
      (nthPlayer gr.players i).id = (nthPlayer g1.players i).id ∧
      ((nthPlayer g1.players i).id ≠ pid →
        (nthPlayer gr.players i).currentBet = (nthPlayer g1.players i).currentBet ∧
        ((nthPlayer gr.players i).canAct = true →
          (nthPlayer gr.players i).currentBet < gr.currentBet →
          (nthPlayer gr.players i).hasActedThisRound = false) ∧
        ((nthPlayer gr.players i).currentBet = gr.currentBet →
          (nthPlayer gr.players i).hasActedThisRound
            = (nthPlayer g1.players i).hasActedThisRound)) := by
  unfold applyAllIn at h
  rw [Prod.ext_iff] at h
  replace h := h.2
  dsimp only at h
  rw [updatePlayer_currentBet] at h
  by_cases hc : g1.currentBet < player.currentBet + player.chips
  · rw [if_pos hc] at h
    have hcb : gr.currentBet = player.currentBet + player.chips := by
      rw [← h]
      rfl
    have hpl : gr.players =
        (g1.players.map (fun p => if p.id = pid then allInUpd player.chips p else p)).map
          (resetIf pid (player.currentBet + player.chips)) := by
      rw [← h]
      rw [updatePlayer_players]
      rfl
    intro i
    have hwrapid : ∀ p : Player,
        ((fun p : Player => if p.id = pid then allInUpd player.chips p else p) p).id
          = p.id := by
      intro p
      dsimp only
      split
      · rw [allInUpd_id]
      · rfl
    constructor
    · rw [hpl]
      exact (nthPlayer_map_id _ (resetIf_id _ _) _ i).trans
        (nthPlayer_map_id _ hwrapid g1.players i)
    · intro hne
      have hmid := nthPlayer_update_ne g1.players pid (allInUpd player.chips) i hne
      have props := reset_players_props
        (g1.players.map (fun p => if p.id = pid then allInUpd player.chips p else p)) pid
        (player.currentBet + player.chips) i
      rw [hmid] at props
      refine ⟨?_, ?_, ?_⟩
      · rw [hpl]
        exact props.2.1
      · rw [hpl, hcb]
        exact (props.2.2 hne).1
      · rw [hpl, hcb]
        exact (props.2.2 hne).2
  · rw [if_neg hc] at h
    have hcb : gr.currentBet = g1.currentBet := by
      rw [← h]
      rfl
    exact absurd (hcb ▸ hinc) (lt_irrefl _)

/-- C6: after an accepted raise — or an accepted all-in whose resulting
bet exceeds the previous table bet, which is equivalent to the table
bet having increased — every other player keeps its position, id and
current bet; every other player that can act and whose current bet is
below the new table bet has `has_acted_this_round` reset to false, even
if it had already acted this street; and every other player whose
current bet matches the new table bet keeps its previous flag. -/
theorem c6_raise_reopens_action (g : Game) (pid act : String) (amount : Int)
    (g2 : Game) (hacc : processAction g pid act amount = some (true, g2))
    (hact : act = "raise" ∨ (act = "all_in" ∧ g.currentBet < g2.currentBet)) :
    ∀ i : Nat,
      (nthPlayer g2.players i).id = (nthPlayer g.players i).id ∧
      ((nthPlayer g.players i).id ≠ pid →
        (nthPlayer g2.players i).currentBet = (nthPlayer g.players i).currentBet ∧
        ((nthPlayer g2.players i).canAct = true →
          (nthPlayer g2.players i).currentBet < g2.currentBet →
          (nthPlayer g2.players i).hasActedThisRound = false) ∧
        ((nthPlayer g2.players i).currentBet = g2.currentBet →
          (nthPlayer g2.players i).hasActedThisRound
            = (nthPlayer g.players i).hasActedThisRound)) := by
  have hflagid : ∀ p : Player,
      ((fun p : Player =>
        if p.id = pid then { p with hasActedThisRound := true } else p) p).id = p.id := by
    intro p
    dsimp only
    split <;> rfl
  have hG1id : ∀ i : Nat,
      (nthPlayer (g.updatePlayer pid
          (fun p => { p with hasActedThisRound := true })).players i).id
        = (nthPlayer g.players i).id := by
    intro i
    rw [updatePlayer_players]
    exact nthPlayer_map_id _ hflagid g.players i
  have hG1ne : ∀ i : Nat, (nthPlayer g.players i).id ≠ pid →
      nthPlayer (g.updatePlayer pid
          (fun p => { p with hasActedThisRound := true })).players i
        = nthPlayer g.players i := by
    intro i hne
    rw [updatePlayer_players]
    exact nthPlayer_update_ne g.players pid _ i hne
  have final : (∀ i : Nat,
      (nthPlayer g2.players i).id
        = (nthPlayer (g.updatePlayer pid
            (fun p => { p with hasActedThisRound := true })).players i).id ∧
      ((nthPlayer (g.updatePlayer pid
            (fun p => { p with hasActedThisRound := true })).players i).id ≠ pid →
        (nthPlayer g2.players i).currentBet
          = (nthPlayer (g.updatePlayer pid
              (fun p => { p with hasActedThisRound := true })).players i).currentBet ∧
        ((nthPlayer g2.players i).canAct = true →
          (nthPlayer g2.players i).currentBet < g2.currentBet →
          (nthPlayer g2.players i).hasActedThisRound = false) ∧
        ((nthPlayer g2.players i).currentBet = g2.currentBet →
          (nthPlayer g2.players i).hasActedThisRound
            = (nthPlayer (g.updatePlayer pid
                (fun p => { p with hasActedThisRound := true })).players i).hasActedThisRound)))
      → ∀ i : Nat,
      (nthPlayer g2.players i).id = (nthPlayer g.players i).id ∧
      ((nthPlayer g.players i).id ≠ pid →
        (nthPlayer g2.players i).currentBet = (nthPlayer g.players i).currentBet ∧
        ((nthPlayer g2.players i).canAct = true →
          (nthPlayer g2.players i).currentBet < g2.currentBet →
          (nthPlayer g2.players i).hasActedThisRound = false) ∧
        ((nthPlayer g2.players i).currentBet = g2.currentBet →
          (nthPlayer g2.players i).hasActedThisRound
            = (nthPlayer g.players i).hasActedThisRound)) := by
    intro hrel i
    refine ⟨(hrel i).1.trans (hG1id i), fun hne => ?_⟩
    have hne1 : (nthPlayer (g.updatePlayer pid
        (fun p => { p with hasActedThisRound := true })).players i).id ≠ pid := by
      rw [hG1id i]
      exact hne
    obtain ⟨hbet, hA, hB⟩ := (hrel i).2 hne1
    refine ⟨hbet.trans (congrArg Player.currentBet (hG1ne i hne)), hA, fun heq => ?_⟩
    exact (hB heq).trans (congrArg Player.hasActedThisRound (hG1ne i hne))
  rcases hact with hr | ⟨ha, hlt⟩
  · subst hr
    unfold processAction at hacc
    split at hacc
    · simp at hacc
    next player0 hfind =>
      split at hacc
      · simp at hacc
      split at hacc
      · simp at hacc
      split at hacc
      · simp at hacc
      next turnId hget =>
        split at hacc
        · simp at hacc
        rw [if_neg (by decide : ¬ ("raise" : String) = "fold"),
            if_neg (by decide : ¬ ("raise" : String) = "check"),
            if_neg (by decide : ¬ ("raise" : String) = "call"),
            if_pos (rfl : ("raise" : String) = "raise")] at hacc
        rw [Option.some_inj] at hacc
        exact final (applyRaise_reopens _ pid _ amount g2 hacc)
  · subst ha
    unfold processAction at hacc
    split at hacc
    · simp at hacc
    next player0 hfind =>
      split at hacc
      · simp at hacc
      split at hacc
      · simp at hacc
      split at hacc
      · simp at hacc
      next turnId hget =>
        split at hacc
        · simp at hacc
        rw [if_neg (by decide : ¬ ("all_in" : String) = "fold"),
            if_neg (by decide : ¬ ("all_in" : String) = "check"),
            if_neg (by decide : ¬ ("all_in" : String) = "call"),
            if_neg (by decide : ¬ ("all_in" : String) = "raise"),
            if_pos (rfl : ("all_in" : String) = "all_in")] at hacc
        rw [Option.some_inj] at hacc
        refine final (applyAllIn_reopens _ pid _ amount g2 hacc ?_)
        rw [updatePlayer_currentBet]
        exact hlt

/-- Witness for C6: in `c6wg` player `B` raises to 60; player `A` (seat
0) had already acted with a matched bet of 20, is now below the table
bet, and has its acted flag reset to false. -/
theorem c6_raise_reopens_action_witness :
    (nthPlayer c6post.players 0).hasActedThisRound = false :=
  ((c6_raise_reopens_action c6wg "B" "raise" 60 c6post (by decide) (Or.inl rfl) 0).2
    (by decide)).2.1 (by decide) (by decide)

theorem length_modifyIdx (l : List Player) (i : Nat) (f : Player → Player) :
    (modifyIdx l i f).length = l.length := by
  induction l generalizing i with
  | nil => rfl
  | cons a as ih =>
    cases i with
    | zero => rfl
    | succ n =>
      show (modifyIdx as n f).length + 1 = as.length + 1
      rw [ih n]

theorem nthPlayer_modifyIdx_self (l : List Player) (i : Nat) (f : Player → Player)
    (h : i < l.length) :
    nthPlayer (modifyIdx l i f) i = f (nthPlayer l i) := by
  induction l generalizing i with
  | nil => exact absurd h (by simp)
  | cons a as ih =>
    cases i with
    | zero => rfl
    | succ n => exact ih n (by simpa using Nat.lt_of_succ_lt_succ h)

theorem nthPlayer_modifyIdx_ne (l : List Player) (i j : Nat) (f : Player → Player)
    (h : j ≠ i) :
    nthPlayer (modifyIdx l i f) j = nthPlayer l j := by
  induction l generalizing i j with
  | nil => rfl
  | cons a as ih =>
    cases i with
    | zero =>
      cases j with
      | zero => exact absurd rfl h
      | succ m => rfl
    | succ n =>
      cases j with
      | zero => rfl
      | succ m => exact ih n m (fun he => h (by rw [he]))

theorem sbIndex_lt (g : Game) (hd : g.dealerPosition < g.players.length)
    (h2 : 2 ≤ g.players.length) : sbIndex g < g.players.length := by
  unfold sbIndex
  split
  · exact hd
  · exact Nat.mod_lt _ (by omega)

theorem bbIndex_lt (g : Game) (hd : g.dealerPosition < g.players.length)
    (h2 : 2 ≤ g.players.length) : bbIndex g < g.players.length := by
  unfold bbIndex
  split
  · next hn =>
    rw [hn]
    exact Nat.mod_lt _ (by omega)
  · exact Nat.mod_lt _ (by omega)

theorem sbIndex_ne_bbIndex (g : Game) (hd : g.dealerPosition < g.players.length)
    (h2 : 2 ≤ g.players.length) : sbIndex g ≠ bbIndex g := by
  unfold sbIndex bbIndex
  by_cases hn : g.players.length = 2
  · rw [if_pos hn, if_pos hn]
    have hcases : g.dealerPosition = 0 ∨ g.dealerPosition = 1 := by omega
    rcases hcases with h0 | h0 <;> rw [h0] <;> decide
  · rw [if_neg hn, if_neg hn]
    intro he
    have hmod : Nat.ModEq g.players.length
        (g.dealerPosition + 1) (g.dealerPosition + 2) := he
    have hdvd := (Nat.modEq_iff_dvd' (by omega)).mp hmod
    have h3 : g.dealerPosition + 2 - (g.dealerPosition + 1) = 1 := by omega
    rw [h3] at hdvd
    have := Nat.le_of_dvd (by omega) hdvd
    omega

/-- Full characterisation of `post_blinds` on a table with at least two
seats and a valid dealer index: the small-blind and big-blind seats are
charged `min(blind, chips)` each and marked as having acted, nothing
else changes in the player list, the pot grows by both amounts, the
table bet becomes the big-blind seat's bet and the big-blind seat
becomes the last raiser. -/
theorem postBlinds_spec (g : Game) (hd : g.dealerPosition < g.players.length)
    (h2 : 2 ≤ g.players.length) :
    (postBlinds g).players.length = g.players.length ∧
    nthPlayer (postBlinds g).players (sbIndex g)
      = blindPost (min g.smallBlind (nthPlayer g.players (sbIndex g)).chips)
          (nthPlayer g.players (sbIndex g)) ∧
    nthPlayer (postBlinds g).players (bbIndex g)
      = blindPost (min g.bigBlind (nthPlayer g.players (bbIndex g)).chips)
          (nthPlayer g.players (bbIndex g)) ∧
    (postBlinds g).currentBet
      = (nthPlayer (postBlinds g).players (bbIndex g)).currentBet ∧
    (postBlinds g).lastRaiser
      = some (nthPlayer (postBlinds g).players (bbIndex g)).id ∧
    (postBlinds g).pot = g.pot + min g.smallBlind (nthPlayer g.players (sbIndex g)).chips
        + min g.bigBlind (nthPlayer g.players (bbIndex g)).chips ∧
    (∀ i : Nat, i ≠ sbIndex g → i ≠ bbIndex g →
      nthPlayer (postBlinds g).players i = nthPlayer g.players i) := by
  have hsb := sbIndex_lt g hd h2
  have hbb := bbIndex_lt g hd h2
  have hne := sbIndex_ne_bbIndex g hd h2
  have hp1bb : nthPlayer (modifyIdx g.players (sbIndex g)
      (blindPost (min g.smallBlind (nthPlayer g.players (sbIndex g)).chips))) (bbIndex g)
      = nthPlayer g.players (bbIndex g) :=
    nthPlayer_modifyIdx_ne _ _ _ _ (Ne.symm hne)
  unfold postBlinds
  dsimp only
  rw [hp1bb]
  refine ⟨?_, ?_, ?_, rfl, rfl, rfl, ?_⟩
  · rw [length_modifyIdx, length_modifyIdx]
  · rw [nthPlayer_modifyIdx_ne _ _ _ _ hne,
        nthPlayer_modifyIdx_self _ _ _ hsb]
  · rw [nthPlayer_modifyIdx_self _ _ _ (by rw [length_modifyIdx]; exact hbb), hp1bb]
  · intro i hisb hibb
    rw [nthPlayer_modifyIdx_ne _ _ _ _ hibb, nthPlayer_modifyIdx_ne _ _ _ _ hisb]

/-- C9: blind seat selection and posting.  With exactly two seated
players the dealer seat posts the small blind and the other seat the
big blind; with three or more, the seat after the dealer posts the
small blind and the next seat the big blind; both are charged
`min(blind, chips)`; afterwards the table bet equals the big-blind
player's current bet and the last raiser is the big-blind player. -/
theorem c9_blind_posting (g : Game) (hd : g.dealerPosition < g.players.length)
    (h2 : 2 ≤ g.players.length) :
    (g.players.length = 2 →
      sbIndex g = g.dealerPosition ∧ bbIndex g = (g.dealerPosition + 1) % 2) ∧
    (3 ≤ g.players.length →
      sbIndex g = (g.dealerPosition + 1) % g.players.length ∧
      bbIndex g = (g.dealerPosition + 2) % g.players.length) ∧
    nthPlayer (postBlinds g).players (sbIndex g)
      = blindPost (min g.smallBlind (nthPlayer g.players (sbIndex g)).chips)
          (nthPlayer g.players (sbIndex g)) ∧
    nthPlayer (postBlinds g).players (bbIndex g)
      = blindPost (min g.bigBlind (nthPlayer g.players (bbIndex g)).chips)
          (nthPlayer g.players (bbIndex g)) ∧
    (postBlinds g).currentBet
      = (nthPlayer (postBlinds g).players (bbIndex g)).currentBet ∧
    (postBlinds g).lastRaiser
      = some (nthPlayer (postBlinds g).players (bbIndex g)).id := by
  obtain ⟨-, hsb, hbb, hcb, hlr, -, -⟩ := postBlinds_spec g hd h2
  refine ⟨?_, ?_, hsb, hbb, hcb, hlr⟩
  · intro hn
    unfold sbIndex bbIndex
    rw [if_pos hn, if_pos hn]
    exact ⟨rfl, rfl⟩
  · intro hn
    have hn2 : ¬ g.players.length = 2 := by omega
    unfold sbIndex bbIndex
    rw [if_neg hn2, if_neg hn2]
    exact ⟨rfl, rfl⟩

/-- Witness for C9: in the heads-up game `c9g` the dealer seat is the
small blind, the big blind is charged, and the table bet and last
raiser point at the big-blind player. -/
theorem c9_blind_posting_witness :
    sbIndex c9g = c9g.dealerPosition ∧
    nthPlayer (postBlinds c9g).players (bbIndex c9g)
      = blindPost (min c9g.bigBlind (nthPlayer c9g.players (bbIndex c9g)).chips)
          (nthPlayer c9g.players (bbIndex c9g)) ∧
    (postBlinds c9g).currentBet
      = (nthPlayer (postBlinds c9g).players (bbIndex c9g)).currentBet ∧
    (postBlinds c9g).lastRaiser
      = some (nthPlayer (postBlinds c9g).players (bbIndex c9g)).id :=
  ⟨((c9_blind_posting c9g (by decide) (by decide)).1 (by decide)).1,
   (c9_blind_posting c9g (by decide) (by decide)).2.2.2.1,
   (c9_blind_posting c9g (by decide) (by decide)).2.2.2.2.1,
   (c9_blind_posting c9g (by decide) (by decide)).2.2.2.2.2⟩

/-- C10: posting the blinds marks both blind posters as having acted,
and consequently, in the concrete 3-player pre-flop trace `c10res`
where the other two players merely call the big blind, the betting
round is complete although the big-blind player `P2` never submitted
an action (the action history holds only the two calls). -/
theorem c10_blinds_mark_acted (g : Game) (hd : g.dealerPosition < g.players.length)
    (h2 : 2 ≤ g.players.length) :
    ((nthPlayer (postBlinds g).players (sbIndex g)).hasActedThisRound = true ∧
     (nthPlayer (postBlinds g).players (bbIndex g)).hasActedThisRound = true) ∧
    (c10res.bind isBettingRoundComplete = some true ∧
     c10res.map (fun r => r.actionHistory)
       = some [("P0", "call", 0), ("P1", "call", 0)]) := by
  obtain ⟨-, hsb, hbb, -, -, -, -⟩ := postBlinds_spec g hd h2
  refine ⟨⟨?_, ?_⟩, ⟨by decide, by rfl⟩⟩
  · rw [hsb]
    rfl
  · rw [hbb]
    rfl

/-- Witness for C10: both blind posters of the 3-player game `c10g0`
have their acted flag set after `post_blinds`. -/
theorem c10_blinds_mark_acted_witness :
    (nthPlayer (postBlinds c10g0).players (sbIndex c10g0)).hasActedThisRound = true ∧
    (nthPlayer (postBlinds c10g0).players (bbIndex c10g0)).hasActedThisRound = true :=
  (c10_blinds_mark_acted c10g0 (by decide) (by decide)).1
